import Mathlib

/-!
Verification of the obp-search-engine frontier/catalog datastore.

Shallow embedding of `src/db/mysql.go` (package `db`, type `SQLDatastore`).
The two MySQL tables `nodes` and `items` are modelled as lists of rows; each
SQL statement of the Go source is translated into a pure function on that
state.  `DATETIME` values are modelled as `Int` (seconds); statements using
`NOW()` take the current time as an explicit `now : Int` parameter.
`DECIMAL(3,2)` columns are modelled as `Int` (value in hundredths); no
operation performs arithmetic on them, they are only stored and copied.
-/

namespace OBP

/-- Stats block of a node profile (`crawling.Node.Profile.Stats`).
Modelled from the spec: the `crawling` package is not under `src/`; §3 of the
spec lists the stats counters `followerCount`, `followingCount`,
`listingCount`, `postCount`, `ratingCount` (integers) and `averageRating`
(decimal), matching the fields `mysql.go` reads from `n.Profile.Stats`. -/
structure Stats where
  followerCount : Int
  followingCount : Int
  listingCount : Int
  postCount : Int
  ratingCount : Int
  averageRating : Int
  deriving DecidableEq, Repr

/-- Profile of a node (`crawling.Node.Profile`).
Modelled from the spec: the `crawling` package is not under `src/`; §3 of the
spec lists the free-text fields, the boolean flags `nsfw`, `vendor`,
`moderator`, `listed`, `banned`, and the stats block.  `mysql.go` reads all
of these except `listed` and `banned`. -/
structure Profile where
  name : String
  handle : String
  location : String
  about : String
  shortDescription : String
  nsfw : Bool
  vendor : Bool
  moderator : Bool
  listed : Bool
  banned : Bool
  stats : Stats
  deriving DecidableEq, Repr

/-- The Go zero value of `Stats`. -/
def Stats.zero : Stats :=
  { followerCount := 0
    followingCount := 0
    listingCount := 0
    postCount := 0
    ratingCount := 0
    averageRating := 0 }

/-- The Go zero value of `Profile` (all strings empty, all flags false). -/
def Profile.zero : Profile :=
  { name := ""
    handle := ""
    location := ""
    about := ""
    shortDescription := ""
    nsfw := false
    vendor := false
    moderator := false
    listed := false
    banned := false
    stats := Stats.zero }

/-- A node as handed to / returned by the store (`crawling.Node`).
Modelled from the spec: the `crawling` package is not under `src/`; §3 of the
spec gives `id`, `lastCrawled` and the optional profile, matching the fields
`mysql.go` reads (`n.ID`, `n.LastCrawled`, `n.Profile`). -/
structure Node where
  id : String
  lastCrawled : Int
  profile : Profile
  deriving DecidableEq, Repr

/-- One row of the `nodes` table, with the columns of the `CREATE TABLE`
statement in `NewSQLDatastore`.  Columns without `NOT NULL` or `DEFAULT` are
nullable and modelled as `Option`; `listed` and `banned` carry
`DEFAULT 0`. -/
structure NodeRow where
  id : String
  lastUpdated : Int
  name : Option String
  handle : Option String
  location : Option String
  nsfw : Option Bool
  vendor : Option Bool
  moderator : Option Bool
  about : Option String
  shortDescription : Option String
  followerCount : Option Int
  followingCount : Option Int
  listingCount : Option Int
  postCount : Option Int
  ratingCount : Option Int
  averageRating : Option Int
  listed : Bool
  banned : Bool
  deriving DecidableEq, Repr

/-- Thumbnail of an item (`crawling.Item.Thumbnail`): the three size-variant
URLs `mysql.go` reads (`Tiny`, `Small`, `Medium`). -/
structure Thumbnail where
  tiny : String
  small : String
  medium : String
  deriving DecidableEq, Repr

/-- Price of an item (`crawling.Item.Price`): `mysql.go` reads `Amount` and
`CurrencyCode`. -/
structure Price where
  amount : Int
  currencyCode : String
  deriving DecidableEq, Repr

/-- An item as handed to the store (`crawling.Item`), with exactly the fields
`mysql.go` reads from `items[i]`. -/
structure Item where
  hash : String
  slug : String
  title : String
  description : String
  thumbnail : Thumbnail
  language : String
  price : Price
  categories : List String
  nsfw : Bool
  contractType : String
  averageRating : Int
  deriving DecidableEq, Repr

/-- One row of the `items` table, with the columns of the `CREATE TABLE`
statement in `NewSQLDatastore`.  Every insert sets every column, so nullable
columns need no `Option` here. -/
structure ItemRow where
  owner : String
  hash : String
  slug : String
  title : String
  tags : String
  description : String
  thumbnail : String
  language : String
  priceAmount : Int
  priceCurrency : String
  categories : String
  nsfw : Bool
  contractType : String
  rating : Int
  deriving DecidableEq, Repr

/-- The datastore state: the two tables owned by `SQLDatastore`. -/
structure DB where
  nodes : List NodeRow
  items : List ItemRow
  deriving DecidableEq, Repr

/-- The empty datastore, as created by `NewSQLDatastore` on a fresh engine. -/
def DB.empty : DB := { nodes := [], items := [] }

/-! ## Node operations -/

/-- The row produced by scanning `SELECT id, lastUpdated` into a fresh
`crawling.Node{}`: only `ID` and `LastCrawled` are set, the profile keeps its
Go zero value. -/
def scanIdLastUpdated (r : NodeRow) : Node :=
  { id := r.id
    lastCrawled := r.lastUpdated
    profile := Profile.zero }

/-- `ORDER BY lastUpdated ASC LIMIT 1`: the row with the smallest
`lastUpdated`, scanning the table left to right. -/
def selectMinRow (r : NodeRow) (rs : List NodeRow) : NodeRow :=
  rs.foldl (fun best x => if x.lastUpdated < best.lastUpdated then x else best) r

/-- `GetNextNode` (`mysql.go:31`): `SELECT id, lastUpdated FROM nodes ORDER BY
lastUpdated ASC LIMIT 1`, scanned into a fresh node; `Scan` fails with no-rows
(`NotFound`) on an empty table, modelled as `none`. -/
def GetNextNode (db : DB) : Option Node :=
  match db.nodes with
  | [] => none
  | r :: rs => some (scanIdLastUpdated (selectMinRow r rs))

/-- `GetNode` (`mysql.go:137`): `SELECT id, lastUpdated FROM nodes WHERE
id=?`, scanned into a fresh node; `none` models the no-rows error. -/
def GetNode (db : DB) (nodeID : String) : Option Node :=
  (db.nodes.find? (fun r => r.id == nodeID)).map scanIdLastUpdated

/-- The minimal row created by `SaveNodeUninitialized`'s
`INSERT INTO nodes (id, lastUpdated) VALUES (?, NOW())`: every other column
is NULL or its schema default. -/
def minimalNodeRow (id : String) (lastUpdated : Int) : NodeRow :=
  { id := id
    lastUpdated := lastUpdated
    name := none
    handle := none
    location := none
    nsfw := none
    vendor := none
    moderator := none
    about := none
    shortDescription := none
    followerCount := none
    followingCount := none
    listingCount := none
    postCount := none
    ratingCount := none
    averageRating := none
    listed := false
    banned := false }

/-- `SaveNodeUninitialized` (`mysql.go:42`): upsert of `(id, lastUpdated)`
with `ON DUPLICATE KEY UPDATE lastUpdated=NOW()`. -/
def SaveNodeUninitialized (db : DB) (now : Int) (n : Node) : DB :=
  if db.nodes.any (fun r => r.id == n.id) then
    { db with nodes := db.nodes.map (fun r =>
        if r.id == n.id then { r with lastUpdated := now } else r) }
  else
    { db with nodes := db.nodes ++ [minimalNodeRow n.id now] }

/-- The `ON DUPLICATE KEY UPDATE` clause of `SaveNode` (`mysql.go:69`): sets
`lastUpdated` and the fourteen profile columns; `id`, `listed` and `banned`
are not in the clause and keep their stored values. -/
def saveNodeUpdate (now : Int) (n : Node) (r : NodeRow) : NodeRow :=
  { r with
    lastUpdated := now
    name := some n.profile.name
    handle := some n.profile.handle
    location := some n.profile.location
    nsfw := some n.profile.nsfw
    vendor := some n.profile.vendor
    moderator := some n.profile.moderator
    about := some n.profile.about
    shortDescription := some n.profile.shortDescription
    followerCount := some n.profile.stats.followerCount
    followingCount := some n.profile.stats.followingCount
    listingCount := some n.profile.stats.listingCount
    postCount := some n.profile.stats.postCount
    ratingCount := some n.profile.stats.ratingCount
    averageRating := some n.profile.stats.averageRating }

/-- The row created by `SaveNode`'s insert branch: the sixteen listed columns
get values, `listed` and `banned` get their schema default `0`. -/
def saveNodeInsertRow (now : Int) (n : Node) : NodeRow :=
  saveNodeUpdate now n (minimalNodeRow n.id now)

/-- `SaveNode` (`mysql.go:63`): full-profile upsert keyed on `id`. -/
def SaveNode (db : DB) (now : Int) (n : Node) : DB :=
  if db.nodes.any (fun r => r.id == n.id) then
    { db with nodes := db.nodes.map (fun r =>
        if r.id == n.id then saveNodeUpdate now n r else r) }
  else
    { db with nodes := db.nodes ++ [saveNodeInsertRow now n] }

/-- The sentinel `'2000-01-01 00:00:00'` used by `AddUninitializedNodes`,
as seconds since the Unix epoch. -/
def sentinelLastUpdated : Int := 946684800

/-- `AddUninitializedNodes` (`mysql.go:114`): one `INSERT IGNORE INTO nodes
(id, lastUpdated) VALUES (?, '2000-01-01 00:00:00')` per node, in one
transaction; `IGNORE` drops the insert when the primary key already exists
(earlier inserts of the same batch are visible to later ones). -/
def AddUninitializedNodes (db : DB) (ns : List Node) : DB :=
  { db with nodes := ns.foldl (fun rows n =>
      if rows.any (fun r => r.id == n.id) then rows
      else rows ++ [minimalNodeRow n.id sentinelLastUpdated]) db.nodes }

/-! ## Item operations -/

/-- The `thumbnail` column value built at `mysql.go:185`:
`Tiny+","+Small+","+Medium`. -/
def thumbnailField (t : Thumbnail) : String :=
  t.tiny ++ "," ++ t.small ++ "," ++ t.medium

/-- The `categories` column value built at `mysql.go:189`:
`strings.Join(categories, ",")`. -/
def categoriesField (cs : List String) : String :=
  String.intercalate "," cs

/-- The full `items` row inserted by `AddItemsForNode` (`mysql.go:178`):
every column is set, `tags` is always the empty string. -/
def itemRowOfItem (owner : String) (it : Item) : ItemRow :=
  { owner := owner
    hash := it.hash
    slug := it.slug
    title := it.title
    tags := ""
    description := it.description
    thumbnail := thumbnailField it.thumbnail
    language := it.language
    priceAmount := it.price.amount
    priceCurrency := it.price.currencyCode
    categories := categoriesField it.categories
    nsfw := it.nsfw
    contractType := it.contractType
    rating := it.averageRating }

/-- The `ON DUPLICATE KEY UPDATE` clause of the item insert (`mysql.go:172`):
sets the twelve listed columns; `owner` and `hash` are not in the clause and
keep their stored values. -/
def itemRowOnDup (it : Item) (r : ItemRow) : ItemRow :=
  { r with
    slug := it.slug
    title := it.title
    tags := ""
    description := it.description
    thumbnail := thumbnailField it.thumbnail
    language := it.language
    priceAmount := it.price.amount
    priceCurrency := it.price.currencyCode
    categories := categoriesField it.categories
    nsfw := it.nsfw
    contractType := it.contractType
    rating := it.averageRating }

/-- One execution of the item insert statement: `INSERT ... ON DUPLICATE KEY
UPDATE ...` keyed on the primary key `hash`. -/
def upsertItem (rows : List ItemRow) (owner : String) (it : Item) : List ItemRow :=
  if rows.any (fun r => r.hash == it.hash) then
    rows.map (fun r => if r.hash == it.hash then itemRowOnDup it r else r)
  else
    rows ++ [itemRowOfItem owner it]

/-- `AddItemsForNode` (`mysql.go:153`), success path: within one transaction,
`DELETE FROM items WHERE owner = ?` then one upsert per item in order. -/
def AddItemsForNode (db : DB) (owner : String) (items : List Item) : DB :=
  { db with
    items := items.foldl (fun rows it => upsertItem rows owner it)
      (db.items.filter (fun r => !(r.owner == owner))) }

/-- The insert loop of `AddItemsForNode` under a failure schedule: statement
number `k` fails when `failAt = some k`; the Go loop returns the error
immediately, leaving the transaction uncommitted. -/
def runInserts (owner : String) (failAt : Option Nat) :
    List ItemRow → Nat → List Item → Except Unit (List ItemRow)
  | rows, _, [] => Except.ok rows
  | rows, k, it :: rest =>
    if failAt = some k then Except.error ()
    else runInserts owner failAt (upsertItem rows owner it) (k + 1) rest

/-- `AddItemsForNode` (`mysql.go:153`) with its transaction made explicit.
Statement `0` is the `DELETE`, statements `1..items.length` are the inserts,
statement `items.length + 1` is `tx.Commit()`.  On any failure the Go code
returns without committing and the deferred `cancel()` rolls the transaction
back, so the committed state is the original `db`; only a successful
`Commit` publishes the working state.  Returns the committed state together
with the error result the caller sees. -/
def AddItemsForNodeTx (db : DB) (owner : String) (items : List Item)
    (failAt : Option Nat) : DB × Except Unit Unit :=
  if failAt = some 0 then (db, Except.error ()) else
  match runInserts owner failAt (db.items.filter (fun r => !(r.owner == owner))) 1 items with
  | Except.error () => (db, Except.error ())
  | Except.ok rows =>
    if failAt = some (items.length + 1) then (db, Except.error ())
    else ({ db with items := rows }, Except.ok ())

/-! ## Spec-side predicates and decoders -/

/-- Equality of all columns a row update is supposed to leave alone when the
spec says "leaving profile fields unchanged": every column except `id` and
`lastUpdated`. -/
def profileColumnsEq (r r' : NodeRow) : Prop :=
  r'.name = r.name ∧ r'.handle = r.handle ∧ r'.location = r.location ∧
  r'.nsfw = r.nsfw ∧ r'.vendor = r.vendor ∧ r'.moderator = r.moderator ∧
  r'.about = r.about ∧ r'.shortDescription = r.shortDescription ∧
  r'.followerCount = r.followerCount ∧ r'.followingCount = r.followingCount ∧
  r'.listingCount = r.listingCount ∧ r'.postCount = r.postCount ∧
  r'.ratingCount = r.ratingCount ∧ r'.averageRating = r.averageRating ∧
  r'.listed = r.listed ∧ r'.banned = r.banned

/-- The columns `SaveNode` is supposed to overwrite with the node's values:
`lastUpdated` plus the fourteen profile columns of its statement. -/
def savedProfileColumns (now : Int) (n : Node) (r' : NodeRow) : Prop :=
  r'.lastUpdated = now ∧ r'.name = some n.profile.name ∧
  r'.handle = some n.profile.handle ∧ r'.location = some n.profile.location ∧
  r'.nsfw = some n.profile.nsfw ∧ r'.vendor = some n.profile.vendor ∧
  r'.moderator = some n.profile.moderator ∧ r'.about = some n.profile.about ∧
  r'.shortDescription = some n.profile.shortDescription ∧
  r'.followerCount = some n.profile.stats.followerCount ∧
  r'.followingCount = some n.profile.stats.followingCount ∧
  r'.listingCount = some n.profile.stats.listingCount ∧
  r'.postCount = some n.profile.stats.postCount ∧
  r'.ratingCount = some n.profile.stats.ratingCount ∧
  r'.averageRating = some n.profile.stats.averageRating

/-- Decoder for the comma-joined `categories` column, at the character-list
level: splits on the character `','`. -/
def splitCommaChars : List Char → List (List Char)
  | [] => [[]]
  | c :: cs =>
    if c = ',' then [] :: splitCommaChars cs
    else
      match splitCommaChars cs with
      | [] => [[c]]
      | g :: gs => (c :: g) :: gs

/-- The character-level shape of a comma-join: head group, then a comma
before each later group. -/
def joinCommaChars : List (List Char) → List Char
  | [] => []
  | a :: as => a ++ (as.map (fun b => ',' :: b)).flatten

/-! ## Concrete fixtures for witnesses and counterexamples -/

/-- Sample item used in concrete runs. -/
def itemH1 : Item :=
  { hash := "h1"
    slug := "s1"
    title := "t1"
    description := "d1"
    thumbnail := { tiny := "tn", small := "sm", medium := "md" }
    language := "en"
    price := { amount := 42, currencyCode := "PHR" }
    categories := ["a", "b"]
    nsfw := false
    contractType := "SALE"
    averageRating := 450 }

/-- Item whose single category contains a comma. -/
def itemCatJoined : Item := { itemH1 with categories := ["a,b"] }

/-- Item with the two categories obtained by splitting the same text. -/
def itemCatSplit : Item := { itemH1 with categories := ["a", "b"] }

/-- Node carrying the profile of the spec scenario: name "X", five
followers. -/
def nodeC1 : Node :=
  { id := "A"
    lastCrawled := 0
    profile := { Profile.zero with
      name := "X"
      stats := { Stats.zero with followerCount := 5 } } }

/-- Node whose profile sets the `listed` and `banned` flags. -/
def nodeC3 : Node :=
  { id := "A"
    lastCrawled := 0
    profile := { Profile.zero with listed := true, banned := true } }

/-- Node with id "A" and no profile data, used for touch runs. -/
def nodeTouch : Node := { id := "A", lastCrawled := 0, profile := Profile.zero }

/-- Node with a fresh id "C", used for discovery runs. -/
def nodeFresh : Node := { id := "C", lastCrawled := 0, profile := Profile.zero }

/-- Two-row `nodes` table for scheduling runs. -/
def dbTwoNodes : DB :=
  { nodes := [minimalNodeRow "A" 10, minimalNodeRow "B" 5], items := [] }

/-- Sample item with a second hash. -/
def itemH2 : Item := { itemH1 with hash := "h2" }

/-- Single stale item row owned by "B". -/
def dbStaleB : DB := { nodes := [], items := [itemRowOfItem "B" itemH1] }

/-! ## Helper lemmas -/

theorem selectMinRow_cons (r x : NodeRow) (xs : List NodeRow) :
    selectMinRow r (x :: xs) =
      selectMinRow (if x.lastUpdated < r.lastUpdated then x else r) xs := rfl

theorem selectMinRow_mem (r : NodeRow) (rs : List NodeRow) :
    selectMinRow r rs = r ∨ selectMinRow r rs ∈ rs := by
  induction rs generalizing r with
  | nil => left; rfl
  | cons x xs ih =>
    rw [selectMinRow_cons]
    rcases ih (if x.lastUpdated < r.lastUpdated then x else r) with h | h
    · by_cases hx : x.lastUpdated < r.lastUpdated
      · right
        rw [h, if_pos hx]
        exact List.mem_cons_self x xs
      · left
        rw [h, if_neg hx]
    · right
      exact List.mem_cons_of_mem x h

theorem selectMinRow_le (r : NodeRow) (rs : List NodeRow) :
    (selectMinRow r rs).lastUpdated ≤ r.lastUpdated ∧
      ∀ x ∈ rs, (selectMinRow r rs).lastUpdated ≤ x.lastUpdated := by
  induction rs generalizing r with
  | nil => exact ⟨le_refl _, fun x hx => absurd hx (List.not_mem_nil x)⟩
  | cons x xs ih =>
    rw [selectMinRow_cons]
    by_cases hx : x.lastUpdated < r.lastUpdated
    · rw [if_pos hx]
      rcases ih x with ⟨h1, h2⟩
      refine ⟨by omega, fun y hy => ?_⟩
      rcases List.mem_cons.mp hy with h' | h'
      · rw [h']
        exact h1
      · exact h2 y h'
    · rw [if_neg hx]
      rcases ih r with ⟨h1, h2⟩
      refine ⟨h1, fun y hy => ?_⟩
      rcases List.mem_cons.mp hy with h' | h'
      · rw [h']
        omega
      · exact h2 y h'

/-! ## Claim theorems -/

/-- Claim C6: whenever the node collection is non-empty, `GetNextNode`
returns a node whose `lastCrawled` is the minimum `lastUpdated` over all
stored rows (oldest first, no priority weighting); on an empty collection it
fails with not-found (`none`). -/
theorem GetNextNode_returns_min (db : DB) :
    (db.nodes = [] → GetNextNode db = none) ∧
    (db.nodes ≠ [] →
      ∃ nd r, GetNextNode db = some nd ∧ r ∈ db.nodes ∧ nd.id = r.id ∧
        nd.lastCrawled = r.lastUpdated ∧
        ∀ x ∈ db.nodes, r.lastUpdated ≤ x.lastUpdated) := by
  constructor
  · intro h
    simp [GetNextNode, h]
  · intro h
    rcases hdb : db.nodes with _ | ⟨r, rs⟩
    · exact absurd hdb h
    refine ⟨scanIdLastUpdated (selectMinRow r rs), selectMinRow r rs, ?_, ?_, rfl, rfl, ?_⟩
    · simp [GetNextNode, hdb]
    · rcases selectMinRow_mem r rs with h' | h'
      · rw [h']
        exact List.mem_cons_self r rs
      · exact List.mem_cons_of_mem r h'
    · intro x hx
      rcases List.mem_cons.mp hx with h' | h'
      · rw [h']
        exact (selectMinRow_le r rs).1
      · exact (selectMinRow_le r rs).2 x h'

theorem GetNextNode_returns_min_witness :
    dbTwoNodes.nodes ≠ [] ∧
    (∃ nd r, GetNextNode dbTwoNodes = some nd ∧ r ∈ dbTwoNodes.nodes ∧
      nd.id = r.id ∧ nd.lastCrawled = r.lastUpdated ∧
      ∀ x ∈ dbTwoNodes.nodes, r.lastUpdated ≤ x.lastUpdated) :=
  ⟨by decide, (GetNextNode_returns_min dbTwoNodes).2 (by decide)⟩

/-- Claim C1, counterexample: saving the spec scenario's profile (id "A",
name "X", five followers) and reading it back returns the zero profile, not
name "X" and followerCount 5 — `GetNode` selects only `id` and
`lastUpdated`. -/
theorem GetNode_after_SaveNode_counterexample :
    GetNode (SaveNode DB.empty 100 nodeC1) "A" =
      some { id := "A", lastCrawled := 100, profile := Profile.zero } ∧
    nodeC1.profile.name = "X" ∧ nodeC1.profile.stats.followerCount = 5 ∧
    Profile.zero.name ≠ "X" ∧ Profile.zero.stats.followerCount ≠ 5 := by
  exact ⟨by decide, by decide, by decide, by decide, by decide⟩

/-- Claim C1 (amended): after a successful `SaveNode` of a node with id A,
a subsequent `GetNode A` returns a node whose id is A and whose
`lastCrawled` is the save time, but whose profile fields are all zero
values — `GetNode`'s query selects only `id` and `lastUpdated`, not the
stored profile columns. -/
theorem GetNode_after_SaveNode_returns_zero_profile (db : DB) (now : Int) (n : Node) :
    GetNode (SaveNode db now n) n.id =
      some { id := n.id, lastCrawled := now, profile := Profile.zero } := by
  unfold GetNode SaveNode
  by_cases h : db.nodes.any (fun r => r.id == n.id)
  · rw [if_pos h]
    have hpf : (fun r : NodeRow => r.id == n.id) ∘
        (fun r => if r.id == n.id then saveNodeUpdate now n r else r) =
        (fun r : NodeRow => r.id == n.id) := by
      funext r
      by_cases hr : r.id == n.id
      · simp only [Function.comp, if_pos hr]
        rfl
      · simp only [Function.comp, if_neg hr]
    have hsome : (db.nodes.find? (fun r => r.id == n.id)).isSome :=
      List.find?_isSome.mpr (List.any_eq_true.mp h)
    rcases Option.isSome_iff_exists.mp hsome with ⟨r1, hr1⟩
    have hp1 := List.find?_some hr1
    have hid : r1.id = n.id := by simpa using hp1
    rw [List.find?_map, hpf, hr1]
    simp [scanIdLastUpdated, saveNodeUpdate, hid]
  · rw [if_neg h]
    have hnone : db.nodes.find? (fun r => r.id == n.id) = none :=
      List.find?_eq_none.mpr (by
        intro x hx hpx
        exact absurd (List.any_eq_true.mpr ⟨x, hx, hpx⟩) h)
    simp [List.find?_append, hnone, List.find?, saveNodeInsertRow, saveNodeUpdate,
      minimalNodeRow, scanIdLastUpdated]

/-- Claim C8: a successful `SaveNodeUninitialized` (the spec's `touch`) sets
the row's `lastUpdated` to now and leaves every profile column unchanged when
the row exists; when it does not, it creates the minimal row holding only the
id and `lastUpdated`; no other row and no item row is affected. -/
theorem SaveNodeUninitialized_touch (db : DB) (now : Int) (n : Node) :
    (SaveNodeUninitialized db now n).items = db.items ∧
    ((∃ r ∈ db.nodes, r.id = n.id) →
      (SaveNodeUninitialized db now n).nodes =
        db.nodes.map (fun r => if r.id == n.id then { r with lastUpdated := now } else r) ∧
      ∀ r ∈ db.nodes, r.id = n.id → profileColumnsEq r { r with lastUpdated := now }) ∧
    ((¬ ∃ r ∈ db.nodes, r.id = n.id) →
      (SaveNodeUninitialized db now n).nodes = db.nodes ++ [minimalNodeRow n.id now]) := by
  have hiff : (db.nodes.any (fun r => r.id == n.id) = true) ↔ ∃ r ∈ db.nodes, r.id = n.id := by
    simp [List.any_eq_true]
  refine ⟨?_, ?_, ?_⟩
  · unfold SaveNodeUninitialized
    split <;> rfl
  · intro hex
    unfold SaveNodeUninitialized
    rw [if_pos (hiff.mpr hex)]
    exact ⟨rfl, fun r _ _ => by simp [profileColumnsEq]⟩
  · intro hex
    unfold SaveNodeUninitialized
    rw [if_neg (fun hc => hex (hiff.mp hc))]

theorem SaveNodeUninitialized_touch_witness :
    (∃ r ∈ dbTwoNodes.nodes, r.id = nodeTouch.id) ∧
    ((SaveNodeUninitialized dbTwoNodes 99 nodeTouch).nodes =
      dbTwoNodes.nodes.map (fun r =>
        if r.id == nodeTouch.id then { r with lastUpdated := 99 } else r) ∧
      ∀ r ∈ dbTwoNodes.nodes, r.id = nodeTouch.id →
        profileColumnsEq r { r with lastUpdated := 99 }) := by
  have h : ∃ r ∈ dbTwoNodes.nodes, r.id = nodeTouch.id := by decide
  exact ⟨h, (SaveNodeUninitialized_touch dbTwoNodes 99 nodeTouch).2.1 h⟩

/-- Claim C3, counterexample: the profile fields do not all reach the store.
Saving a node whose profile has `listed = true` and `banned = true` stores a
row with `listed = false` and `banned = false`: `SaveNode`'s statement does
not include the `listed` and `banned` columns. -/
theorem SaveNode_listed_banned_counterexample :
    nodeC3.profile.listed = true ∧ nodeC3.profile.banned = true ∧
    (SaveNode DB.empty 100 nodeC3).nodes.map NodeRow.listed = [false] ∧
    (SaveNode DB.empty 100 nodeC3).nodes.map NodeRow.banned = [false] :=
  ⟨by decide, by decide, by decide, by decide⟩

/-- Claim C3 (amended): a successful `SaveNode` sets the stored row's
`lastUpdated` to now and overwrites `name`, `handle`, `location`, `about`,
`shortDescription`, the flags `nsfw`, `vendor`, `moderator`, and all stats
counters and `averageRating` with the node's values, unconditionally; the
flags `listed` and `banned` are NOT written: an existing row keeps its stored
values and a fresh row gets the schema default `false`.  Other rows and the
items table are untouched. -/
theorem SaveNode_overwrites_profile (db : DB) (now : Int) (n : Node) :
    (SaveNode db now n).items = db.items ∧
    (∀ r ∈ db.nodes, r.id ≠ n.id → r ∈ (SaveNode db now n).nodes) ∧
    (∀ r ∈ db.nodes, r.id = n.id →
      ∃ r' ∈ (SaveNode db now n).nodes, r'.id = r.id ∧
        savedProfileColumns now n r' ∧ r'.listed = r.listed ∧ r'.banned = r.banned) ∧
    ((¬ ∃ r ∈ db.nodes, r.id = n.id) →
      (SaveNode db now n).nodes = db.nodes ++ [saveNodeInsertRow now n] ∧
      savedProfileColumns now n (saveNodeInsertRow now n) ∧
      (saveNodeInsertRow now n).id = n.id ∧
      (saveNodeInsertRow now n).listed = false ∧
      (saveNodeInsertRow now n).banned = false) := by
  have hiff : (db.nodes.any (fun r => r.id == n.id) = true) ↔ ∃ r ∈ db.nodes, r.id = n.id := by
    simp [List.any_eq_true]
  refine ⟨?_, ?_, ?_, ?_⟩
  · unfold SaveNode
    split <;> rfl
  · intro r hr hne
    unfold SaveNode
    by_cases h : db.nodes.any (fun r => r.id == n.id) = true
    · rw [if_pos h]
      refine List.mem_map.mpr ⟨r, hr, ?_⟩
      rw [if_neg]
      simp [hne]
    · rw [if_neg h]
      exact List.mem_append_left _ hr
  · intro r hr hid
    unfold SaveNode
    rw [if_pos (hiff.mpr ⟨r, hr, hid⟩)]
    refine ⟨saveNodeUpdate now n r, List.mem_map.mpr ⟨r, hr, ?_⟩, rfl,
      by simp [savedProfileColumns, saveNodeUpdate], rfl, rfl⟩
    rw [if_pos]
    simp [hid]
  · intro hex
    unfold SaveNode
    rw [if_neg (fun hc => hex (hiff.mp hc))]
    exact ⟨rfl, by simp [savedProfileColumns, saveNodeInsertRow, saveNodeUpdate,
      minimalNodeRow], rfl, rfl, rfl⟩

theorem SaveNode_overwrites_profile_witness :
    (minimalNodeRow "A" 10 ∈ dbTwoNodes.nodes ∧ (minimalNodeRow "A" 10).id = nodeC3.id) ∧
    (∃ r' ∈ (SaveNode dbTwoNodes 100 nodeC3).nodes, r'.id = (minimalNodeRow "A" 10).id ∧
      savedProfileColumns 100 nodeC3 r' ∧ r'.listed = (minimalNodeRow "A" 10).listed ∧
      r'.banned = (minimalNodeRow "A" 10).banned) := by
  have h1 : minimalNodeRow "A" 10 ∈ dbTwoNodes.nodes := by decide
  have h2 : (minimalNodeRow "A" 10).id = nodeC3.id := by decide
  exact ⟨⟨h1, h2⟩, (SaveNode_overwrites_profile dbTwoNodes 100 nodeC3).2.2.1 _ h1 h2⟩

theorem addUninit_foldl (ns : List Node) (rows : List NodeRow) :
    ∃ newRows,
      ns.foldl (fun rows n => if rows.any (fun r => r.id == n.id) then rows
        else rows ++ [minimalNodeRow n.id sentinelLastUpdated]) rows = rows ++ newRows ∧
      (∀ r ∈ newRows, r.lastUpdated = sentinelLastUpdated ∧
        (∃ n ∈ ns, r = minimalNodeRow n.id sentinelLastUpdated) ∧
        ∀ r0 ∈ rows, r0.id ≠ r.id) ∧
      (∀ n ∈ ns, ∃ r ∈ rows ++ newRows, r.id = n.id) := by
  induction ns generalizing rows with
  | nil =>
    refine ⟨[], by simp, ?_, ?_⟩
    · intro r hr
      exact absurd hr (List.not_mem_nil r)
    · intro n hn
      exact absurd hn (List.not_mem_nil n)
  | cons n ns ih =>
    simp only [List.foldl_cons]
    by_cases h : rows.any (fun r => r.id == n.id) = true
    · rw [if_pos h]
      rcases ih rows with ⟨newRows, heq, hprops, hpresent⟩
      refine ⟨newRows, heq, ?_, ?_⟩
      · intro r hr
        rcases hprops r hr with ⟨h1, ⟨m, hm, h2⟩, h3⟩
        exact ⟨h1, ⟨m, List.mem_cons_of_mem n hm, h2⟩, h3⟩
      · intro m hm
        rcases List.mem_cons.mp hm with h' | h'
        · rcases List.any_eq_true.mp h with ⟨r0, hr0, hp0⟩
          refine ⟨r0, List.mem_append_left _ hr0, ?_⟩
          rw [h']
          simpa using hp0
        · exact hpresent m h'
    · rw [if_neg h]
      rcases ih (rows ++ [minimalNodeRow n.id sentinelLastUpdated]) with
        ⟨newRows, heq, hprops, hpresent⟩
      have hfresh : ∀ r0 ∈ rows, r0.id ≠ n.id := by
        intro r0 hr0 hc
        exact h (List.any_eq_true.mpr ⟨r0, hr0, by simp [hc]⟩)
      refine ⟨minimalNodeRow n.id sentinelLastUpdated :: newRows, ?_, ?_, ?_⟩
      · rw [heq, List.append_assoc]
        rfl
      · intro r hr
        rcases List.mem_cons.mp hr with h' | h'
        · refine ⟨by rw [h']; rfl, ⟨n, List.mem_cons_self n ns, h'⟩, ?_⟩
          intro r0 hr0
          rw [h']
          exact hfresh r0 hr0
        · rcases hprops r h' with ⟨h1, ⟨m, hm, h2⟩, h3⟩
          refine ⟨h1, ⟨m, List.mem_cons_of_mem n hm, h2⟩, ?_⟩
          intro r0 hr0
          exact h3 r0 (List.mem_append_left _ hr0)
      · intro m hm
        rcases List.mem_cons.mp hm with h' | h'
        · refine ⟨minimalNodeRow n.id sentinelLastUpdated, ?_, by rw [h']; rfl⟩
          exact List.mem_append_right _ (List.mem_cons_self _ _)
        · rcases hpresent m h' with ⟨r, hr, hrid⟩
          refine ⟨r, ?_, hrid⟩
          rw [List.append_assoc] at hr
          exact hr

/-- Claim C7: a successful `AddUninitializedNodes` (the spec's
`enqueueDiscovered`) appends, for each id not already present, a minimal row
whose `lastUpdated` is the fixed sentinel `'2000-01-01 00:00:00'`, and leaves
every already-present row completely untouched: the stored rows are exactly
the old rows, in place, followed by the freshly inserted sentinel rows, so
re-discovering a known node never changes its `lastUpdated`.  Afterwards
every id of the batch is present. -/
theorem AddUninitializedNodes_insert_if_absent (db : DB) (ns : List Node) :
    (AddUninitializedNodes db ns).items = db.items ∧
    ∃ newRows, (AddUninitializedNodes db ns).nodes = db.nodes ++ newRows ∧
      (∀ r ∈ newRows, r.lastUpdated = sentinelLastUpdated ∧
        (∃ n ∈ ns, r = minimalNodeRow n.id sentinelLastUpdated) ∧
        ∀ r0 ∈ db.nodes, r0.id ≠ r.id) ∧
      (∀ n ∈ ns, ∃ r ∈ (AddUninitializedNodes db ns).nodes, r.id = n.id) := by
  rcases addUninit_foldl ns db.nodes with ⟨newRows, heq, hprops, hpresent⟩
  refine ⟨rfl, newRows, heq, hprops, ?_⟩
  intro n hn
  rcases hpresent n hn with ⟨r, hr, hrid⟩
  refine ⟨r, ?_, hrid⟩
  show r ∈ (AddUninitializedNodes db ns).nodes
  unfold AddUninitializedNodes
  rw [show (ns.foldl (fun rows n => if rows.any (fun r => r.id == n.id) then rows
    else rows ++ [minimalNodeRow n.id sentinelLastUpdated]) db.nodes) = db.nodes ++ newRows from heq]
  exact hr

theorem AddUninitializedNodes_insert_if_absent_witness :
    (AddUninitializedNodes dbTwoNodes [nodeTouch, nodeFresh]).items = dbTwoNodes.items ∧
    ∃ newRows, (AddUninitializedNodes dbTwoNodes [nodeTouch, nodeFresh]).nodes =
        dbTwoNodes.nodes ++ newRows ∧
      (∀ r ∈ newRows, r.lastUpdated = sentinelLastUpdated ∧
        (∃ n ∈ [nodeTouch, nodeFresh], r = minimalNodeRow n.id sentinelLastUpdated) ∧
        ∀ r0 ∈ dbTwoNodes.nodes, r0.id ≠ r.id) ∧
      (∀ n ∈ [nodeTouch, nodeFresh],
        ∃ r ∈ (AddUninitializedNodes dbTwoNodes [nodeTouch, nodeFresh]).nodes, r.id = n.id) :=
  AddUninitializedNodes_insert_if_absent dbTwoNodes [nodeTouch, nodeFresh]

theorem foldl_upsert_fresh (owner : String) (items : List Item) :
    (items.map Item.hash).Nodup →
    ∀ rows, (∀ r ∈ rows, r.hash ∉ items.map Item.hash) →
      items.foldl (fun rows it => upsertItem rows owner it) rows
        = rows ++ items.map (itemRowOfItem owner) := by
  induction items with
  | nil =>
    intro _ rows _
    simp
  | cons it rest ih =>
    intro hnodup rows hfresh
    have hnodup' : (rest.map Item.hash).Nodup := by
      rw [List.map_cons] at hnodup
      exact (List.nodup_cons.mp hnodup).2
    have hhead : it.hash ∉ rest.map Item.hash := by
      rw [List.map_cons] at hnodup
      exact (List.nodup_cons.mp hnodup).1
    have hany : rows.any (fun r => r.hash == it.hash) = false := by
      apply List.any_eq_false.mpr
      intro r hr
      have hnot := hfresh r hr
      rw [List.map_cons, List.mem_cons] at hnot
      push_neg at hnot
      simp [hnot.1]
    have hups : upsertItem rows owner it = rows ++ [itemRowOfItem owner it] := by
      unfold upsertItem
      rw [if_neg (by simp [hany])]
    have hfresh' : ∀ r ∈ rows ++ [itemRowOfItem owner it], r.hash ∉ rest.map Item.hash := by
      intro r hr
      rcases List.mem_append.mp hr with h' | h'
      · have hnot := hfresh r h'
        rw [List.map_cons, List.mem_cons] at hnot
        push_neg at hnot
        exact hnot.2
      · rcases List.mem_singleton.mp h' with rfl
        exact hhead
    rw [List.foldl_cons, hups, ih hnodup' _ hfresh', List.append_assoc]
    rfl

/-- Claim C2 (amended): provided the given items carry pairwise distinct
hashes and no given hash is already stored under a different owner, a
successful `AddItemsForNode owner items` (the spec's `replaceCatalog`) leaves
as the rows whose `owner` field equals `owner` exactly the rows encoding the
given items, in order — a full replacement with no accumulation; the empty
list leaves zero rows for the owner, and running the operation twice (this
theorem at the second state) leaves exactly the second set.  Without the
cross-owner proviso the claim fails: an item whose hash is stored under a
different owner is not re-owned by the upsert (see the counterexample). -/
theorem AddItemsForNode_full_replacement (db : DB) (owner : String) (items : List Item)
    (hnodup : (items.map Item.hash).Nodup)
    (hfresh : ∀ r ∈ db.items, r.owner ≠ owner → r.hash ∉ items.map Item.hash) :
    (AddItemsForNode db owner items).items.filter (fun r => r.owner == owner)
      = items.map (itemRowOfItem owner) := by
  unfold AddItemsForNode
  rw [foldl_upsert_fresh owner items hnodup (db.items.filter (fun r => !(r.owner == owner))) ?hf]
  case hf =>
    intro r hr
    rcases List.mem_filter.mp hr with ⟨hmem, hcond⟩
    exact hfresh r hmem (by simpa using hcond)
  rw [List.filter_append]
  have h1 : (db.items.filter (fun r => !(r.owner == owner))).filter
      (fun r => r.owner == owner) = [] := by
    rw [List.filter_eq_nil_iff]
    intro r hr
    rcases List.mem_filter.mp hr with ⟨_, hcond⟩
    simpa using hcond
  have h2 : (items.map (itemRowOfItem owner)).filter (fun r => r.owner == owner)
      = items.map (itemRowOfItem owner) := by
    rw [List.filter_eq_self]
    intro r hr
    rcases List.mem_map.mp hr with ⟨it, _, rfl⟩
    simp [itemRowOfItem]
  rw [h1, h2, List.nil_append]

theorem AddItemsForNode_full_replacement_witness :
    (([itemH1].map Item.hash).Nodup ∧
      ∀ r ∈ DB.empty.items, r.owner ≠ "A" → r.hash ∉ [itemH1].map Item.hash) ∧
    (AddItemsForNode DB.empty "A" [itemH1]).items.filter (fun r => r.owner == "A")
      = [itemH1].map (itemRowOfItem "A") := by
  have h1 : ([itemH1].map Item.hash).Nodup := by decide
  have h2 : ∀ r ∈ DB.empty.items, r.owner ≠ "A" → r.hash ∉ [itemH1].map Item.hash := by
    intro r hr
    exact absurd hr (List.not_mem_nil r)
  exact ⟨⟨h1, h2⟩, AddItemsForNode_full_replacement DB.empty "A" [itemH1] h1 h2⟩

/-- Claim C2, counterexample: after owner "B" syncs an item of hash "h1", a
successful `AddItemsForNode "A" [itemH1]` (same hash "h1") leaves NO row
whose owner field is "A" — the upsert hits the stale row's primary key and
does not change its owner — although the given item list is non-empty. -/
theorem AddItemsForNode_cross_owner_counterexample :
    (AddItemsForNode (AddItemsForNode DB.empty "B" [itemH1]) "A" [itemH1]).items.filter
      (fun r => r.owner == "A") = [] ∧
    [itemH1].map (itemRowOfItem "A") ≠ [] :=
  ⟨by decide, by decide⟩

theorem mem_foldl_upsert (owner : String) (items : List Item) (r : ItemRow) :
    r.hash ∉ items.map Item.hash →
    ∀ rows, r ∈ rows →
      r ∈ items.foldl (fun rows it => upsertItem rows owner it) rows := by
  induction items with
  | nil =>
    intro _ rows hr
    simpa using hr
  | cons it rest ih =>
    intro hhash rows hr
    rw [List.map_cons, List.mem_cons] at hhash
    push_neg at hhash
    rw [List.foldl_cons]
    refine ih hhash.2 (upsertItem rows owner it) ?_
    unfold upsertItem
    split
    · exact List.mem_map.mpr ⟨r, hr, by rw [if_neg (by simp [hhash.1])]⟩
    · exact List.mem_append_left _ hr

/-- Claim C10: a successful `AddItemsForNode owner items` leaves every stored
item row whose owner differs from `owner` and whose hash is not among the
given items' hashes completely unchanged — the initial delete removes only
rows with the given owner, and the inserts touch only rows whose primary key
collides with a given hash. -/
theorem AddItemsForNode_other_owner_frame (db : DB) (owner : String) (items : List Item)
    (r : ItemRow) (hr : r ∈ db.items) (hown : r.owner ≠ owner)
    (hhash : r.hash ∉ items.map Item.hash) :
    r ∈ (AddItemsForNode db owner items).items := by
  unfold AddItemsForNode
  exact mem_foldl_upsert owner items r hhash _ (List.mem_filter.mpr ⟨hr, by simp [hown]⟩)

theorem AddItemsForNode_other_owner_frame_witness :
    (itemRowOfItem "B" itemH1 ∈ dbStaleB.items ∧ (itemRowOfItem "B" itemH1).owner ≠ "A" ∧
      (itemRowOfItem "B" itemH1).hash ∉ [itemH2].map Item.hash) ∧
    itemRowOfItem "B" itemH1 ∈ (AddItemsForNode dbStaleB "A" [itemH2]).items := by
  have h1 : itemRowOfItem "B" itemH1 ∈ dbStaleB.items := by decide
  have h2 : (itemRowOfItem "B" itemH1).owner ≠ "A" := by decide
  have h3 : (itemRowOfItem "B" itemH1).hash ∉ [itemH2].map Item.hash := by decide
  exact ⟨⟨h1, h2, h3⟩, AddItemsForNode_other_owner_frame dbStaleB "A" [itemH2] _ h1 h2 h3⟩

/-- Claim C4: during `AddItemsForNode owner items`, when an inserted item's
hash already exists as the primary key of a stored row belonging to a
different owner, the upsert updates that row's other fields from the item
but does not change the row's `owner` field (nor its `hash`). -/
theorem AddItemsForNode_conflict_keeps_owner (db : DB) (owner : String) (it : Item)
    (r : ItemRow) (hr : r ∈ db.items) (hown : r.owner ≠ owner) (hhash : r.hash = it.hash) :
    itemRowOnDup it r ∈ (AddItemsForNode db owner [it]).items ∧
    (itemRowOnDup it r).owner = r.owner ∧ (itemRowOnDup it r).hash = r.hash ∧
    (itemRowOnDup it r).slug = it.slug ∧ (itemRowOnDup it r).title = it.title ∧
    (itemRowOnDup it r).description = it.description ∧
    (itemRowOnDup it r).thumbnail = thumbnailField it.thumbnail ∧
    (itemRowOnDup it r).language = it.language ∧
    (itemRowOnDup it r).priceAmount = it.price.amount ∧
    (itemRowOnDup it r).priceCurrency = it.price.currencyCode ∧
    (itemRowOnDup it r).categories = categoriesField it.categories ∧
    (itemRowOnDup it r).nsfw = it.nsfw ∧
    (itemRowOnDup it r).contractType = it.contractType ∧
    (itemRowOnDup it r).rating = it.averageRating := by
  refine ⟨?_, rfl, rfl, rfl, rfl, rfl, rfl, rfl, rfl, rfl, rfl, rfl, rfl, rfl⟩
  unfold AddItemsForNode
  rw [List.foldl_cons, List.foldl_nil]
  have hmem : r ∈ db.items.filter (fun x => !(x.owner == owner)) :=
    List.mem_filter.mpr ⟨hr, by simp [hown]⟩
  unfold upsertItem
  rw [if_pos (List.any_eq_true.mpr ⟨r, hmem, by simp [hhash]⟩)]
  exact List.mem_map.mpr ⟨r, hmem, by rw [if_pos (by simp [hhash])]⟩

theorem AddItemsForNode_conflict_keeps_owner_witness :
    (itemRowOfItem "B" itemH1 ∈ dbStaleB.items ∧ (itemRowOfItem "B" itemH1).owner ≠ "A" ∧
      (itemRowOfItem "B" itemH1).hash = itemH1.hash) ∧
    (itemRowOnDup itemH1 (itemRowOfItem "B" itemH1) ∈
      (AddItemsForNode dbStaleB "A" [itemH1]).items ∧
    (itemRowOnDup itemH1 (itemRowOfItem "B" itemH1)).owner =
      (itemRowOfItem "B" itemH1).owner) := by
  have h1 : itemRowOfItem "B" itemH1 ∈ dbStaleB.items := by decide
  have h2 : (itemRowOfItem "B" itemH1).owner ≠ "A" := by decide
  have h3 : (itemRowOfItem "B" itemH1).hash = itemH1.hash := by decide
  have h := AddItemsForNode_conflict_keeps_owner dbStaleB "A" itemH1 _ h1 h2 h3
  exact ⟨⟨h1, h2, h3⟩, h.1, h.2.1⟩

theorem runInserts_ok (owner : String) (failAt : Option Nat) (items : List Item) :
    ∀ rows k res, runInserts owner failAt rows k items = Except.ok res →
      res = items.foldl (fun rows it => upsertItem rows owner it) rows := by
  induction items with
  | nil =>
    intro rows k res h
    rw [runInserts] at h
    cases h
    rfl
  | cons it rest ih =>
    intro rows k res h
    rw [runInserts] at h
    by_cases hf : failAt = some k
    · rw [if_pos hf] at h
      exact nomatch h
    · rw [if_neg hf] at h
      rw [List.foldl_cons]
      exact ih (upsertItem rows owner it) (k + 1) res h

/-- Claim C5: `AddItemsForNode` under an explicit failure schedule is
atomic: if any statement of the delete-then-insert sequence (or the commit)
fails, the caller sees an error and the committed state is the original
database, catalog intact; on success the committed state is exactly the
delete-then-insert result.  Full success or no change — never a partial
catalog. -/
theorem AddItemsForNodeTx_atomic (db : DB) (owner : String) (items : List Item)
    (failAt : Option Nat) :
    ((AddItemsForNodeTx db owner items failAt).2 = Except.error () →
      (AddItemsForNodeTx db owner items failAt).1 = db) ∧
    ((AddItemsForNodeTx db owner items failAt).2 = Except.ok () →
      (AddItemsForNodeTx db owner items failAt).1 = AddItemsForNode db owner items) := by
  unfold AddItemsForNodeTx
  by_cases h0 : failAt = some 0
  · rw [if_pos h0]
    exact ⟨fun _ => rfl, fun h => nomatch h⟩
  · rw [if_neg h0]
    cases hrun : runInserts owner failAt
        (db.items.filter (fun r => !(r.owner == owner))) 1 items with
    | error e =>
      cases e
      exact ⟨fun _ => rfl, fun h => nomatch h⟩
    | ok rows =>
      by_cases hc : failAt = some (items.length + 1)
      · simp [hc]
      · simp only [hc, if_false, ite_false, if_neg hc]
        refine ⟨fun h => (nomatch h), fun _ => ?_⟩
        unfold AddItemsForNode
        rw [runInserts_ok owner failAt items
          (db.items.filter (fun r => !(r.owner == owner))) 1 rows hrun]

theorem AddItemsForNodeTx_atomic_witness :
    (AddItemsForNodeTx dbStaleB "A" [itemH1] (some 1)).2 = Except.error () ∧
    (AddItemsForNodeTx dbStaleB "A" [itemH1] (some 1)).1 = dbStaleB := by
  have h : (AddItemsForNodeTx dbStaleB "A" [itemH1] (some 1)).2 = Except.error () := rfl
  exact ⟨h, (AddItemsForNodeTx_atomic dbStaleB "A" [itemH1] (some 1)).1 h⟩

theorem intercalate_go_data (sep : String) (as : List String) :
    ∀ acc, (String.intercalate.go acc sep as).data
      = acc.data ++ (as.map (fun b => sep.data ++ b.data)).flatten := by
  induction as with
  | nil =>
    intro acc
    simp [String.intercalate.go]
  | cons a as ih =>
    intro acc
    rw [String.intercalate.go, ih (acc ++ sep ++ a)]
    simp [List.append_assoc]

theorem intercalate_comma_data (l : List String) :
    (String.intercalate "," l).data = joinCommaChars (l.map String.data) := by
  cases l with
  | nil => rfl
  | cons a as =>
    rw [String.intercalate, intercalate_go_data "," as a]
    simp only [joinCommaChars, List.map_cons, List.map_map]
    rfl

theorem splitCommaChars_join (as : List (List Char)) :
    (∀ b ∈ as, (',' : Char) ∉ b) →
    ∀ a : List Char, (',' : Char) ∉ a →
      splitCommaChars (a ++ (as.map (fun b => ',' :: b)).flatten) = a :: as := by
  induction as with
  | nil =>
    intro _ a ha
    induction a with
    | nil => rfl
    | cons c cs ihc =>
      have hc : c ≠ ',' := fun hc => ha (by rw [hc]; exact List.mem_cons_self _ _)
      have ihc' := ihc (fun hmem => ha (List.mem_cons_of_mem c hmem))
      simp only [List.map_nil, List.flatten_nil, List.append_nil] at ihc' ⊢
      rw [splitCommaChars, if_neg hc, ihc']
  | cons b bs ih =>
    intro hfree a ha
    induction a with
    | nil =>
      simp only [List.nil_append, List.map_cons, List.flatten_cons, List.cons_append]
      rw [splitCommaChars, if_pos rfl]
      have hb := ih (fun x hx => hfree x (List.mem_cons_of_mem b hx)) b
        (hfree b (List.mem_cons_self b bs))
      rw [hb]
    | cons c cs ihc =>
      have hc : c ≠ ',' := fun hc => ha (by rw [hc]; exact List.mem_cons_self _ _)
      have ihc' := ihc (fun hmem => ha (List.mem_cons_of_mem c hmem))
      rw [List.cons_append, splitCommaChars, if_neg hc, ihc']

theorem splitCommaChars_intercalate (l : List String) (hne : l ≠ [])
    (hfree : ∀ c ∈ l, (',' : Char) ∉ c.data) :
    (splitCommaChars (String.intercalate "," l).data).map String.mk = l := by
  rw [intercalate_comma_data]
  cases l with
  | nil => exact absurd rfl hne
  | cons c cs =>
    have h1 : splitCommaChars (joinCommaChars ((c :: cs).map String.data))
        = c.data :: cs.map String.data := by
      rw [List.map_cons, joinCommaChars]
      exact splitCommaChars_join (cs.map String.data)
        (by
          intro b hb
          rcases List.mem_map.mp hb with ⟨s, hs, rfl⟩
          exact hfree s (List.mem_cons_of_mem c hs))
        c.data (hfree c (List.mem_cons_self c cs))
    rw [h1, List.map_cons, List.map_map]
    have h2 : (String.mk ∘ String.data) = id := by
      funext s
      rfl
    rw [h2, List.map_id]

/-- Claim C9 (amended): for every item written by `AddItemsForNode`, the
stored `thumbnail` field is the tiny, small and medium URLs joined with
commas in that fixed order (empty components permitted, all-empty URLs give
",,"), and the stored `categories` field is the ordered category list joined
with commas; the original list is reconstructable from the stored string by
splitting on commas PROVIDED the list is non-empty and no category contains
a comma — without that proviso reconstruction is impossible (see the
counterexample). -/
theorem itemRow_encoding (owner : String) (it : Item) :
    (itemRowOfItem owner it).thumbnail =
      it.thumbnail.tiny ++ "," ++ it.thumbnail.small ++ "," ++ it.thumbnail.medium ∧
    (itemRowOfItem owner it).categories = String.intercalate "," it.categories ∧
    (it.categories ≠ [] → (∀ c ∈ it.categories, (',' : Char) ∉ c.data) →
      (splitCommaChars (itemRowOfItem owner it).categories.data).map String.mk
        = it.categories) := by
  refine ⟨by simp [itemRowOfItem, thumbnailField, String.append_assoc], rfl, ?_⟩
  intro hne hfree
  exact splitCommaChars_intercalate it.categories hne hfree

theorem itemRow_encoding_witness :
    (itemH1.categories ≠ [] ∧ ∀ c ∈ itemH1.categories, (',' : Char) ∉ c.data) ∧
    (splitCommaChars (itemRowOfItem "A" itemH1).categories.data).map String.mk
      = itemH1.categories := by
  have h1 : itemH1.categories ≠ [] := by decide
  have h2 : ∀ c ∈ itemH1.categories, (',' : Char) ∉ c.data := by decide
  exact ⟨⟨h1, h2⟩, (itemRow_encoding "A" itemH1).2.2 h1 h2⟩

/-- Claim C9, counterexample: two runs storing the distinct category lists
["a,b"] and ["a", "b"] produce identical stored `categories` strings, so the
original list is not reconstructable from the stored string in general. -/
theorem categories_not_injective_counterexample :
    (AddItemsForNode DB.empty "A" [itemCatJoined]).items.map ItemRow.categories =
      (AddItemsForNode DB.empty "A" [itemCatSplit]).items.map ItemRow.categories ∧
    itemCatJoined.categories ≠ itemCatSplit.categories :=
  ⟨by decide, by decide⟩

end OBP
